import Mathlib

/-!
Shallow embedding of the ATR workflow service (a Django OCR orchestration
application).  The embedding covers, translated from the source:

* the pure text-cleanup transforms of `ocr_workflow/components/processing.py`
  (`remove_empty_lines`, `remove_xml_tags`, `strip_lines`,
  `remove_first_empty_line`), including the relevant Python `re.sub`,
  `str.splitlines` and `str.strip` semantics;
* the Transkribus polling client of
  `ocr_workflow/components/transkribus_api.py`
  (`check_process_status_with_retry`) over an explicit model of the HTTP
  responses;
* the job orchestration of `main/views.py`: the `_poll_transkribus_jobs`
  back-off polling loop, `_merge_page_results`, the job state store with its
  TTL sweep `_cleanup_old_entries`, the mutation traces of the background
  workers `process_ocr` / `process_tei`, and the synchronous validation logic
  of the `upload_image` and `create_tei` entry points.

Network calls (Transkribus HTR, the multimodal LLM backends) are modelled as
oracle parameters: a completion schedule for the HTR jobs and plain functions
for the LLM calls, so that theorems quantify over every possible completion
behaviour of the providers.
-/

/- ===================== Python string semantics ===================== -/

/-- Characters treated as whitespace by Python: the set matched by `str.strip`
/ `str.isspace` and by the `\s` class of the `re` module on `str` patterns. -/
def isPySpace (c : Char) : Bool :=
  c == ' ' || c == '\t' || c == '\n' || c == '\r' || c == '\x0b' || c == '\x0c' ||
  c == '\x1c' || c == '\x1d' || c == '\x1e' || c == '\x1f' || c == '\x85' || c == '\xa0' ||
  c == '\u1680' || (decide ('\u2000' ≤ c) && decide (c ≤ '\u200a')) ||
  c == '\u2028' || c == '\u2029' || c == '\u202f' || c == '\u205f' || c == '\u3000'

/-- Line-boundary characters recognised by Python `str.splitlines`. -/
def isLineBoundary (c : Char) : Bool :=
  c == '\n' || c == '\r' || c == '\x0b' || c == '\x0c' || c == '\x1c' ||
  c == '\x1d' || c == '\x1e' || c == '\x85' || c == '\u2028' || c == '\u2029'

/-- `str.splitlines`: splits at every line boundary (treating `\r\n` as a
single boundary), dropping the terminators; a trailing chunk without a
terminator is kept only when non-empty. -/
def pySplitlinesAux : List Char → List Char → List (List Char)
  | [], cur => if cur = [] then [] else [cur.reverse]
  | '\r' :: '\n' :: rest, cur => cur.reverse :: pySplitlinesAux rest []
  | c :: rest, cur =>
    if isLineBoundary c then cur.reverse :: pySplitlinesAux rest []
    else pySplitlinesAux rest (c :: cur)

/-- `str.splitlines` on a character list. -/
def pySplitlines (l : List Char) : List (List Char) := pySplitlinesAux l []

/-- `str.strip()`: removes Python whitespace from both ends. -/
def pyStrip (l : List Char) : List Char :=
  ((l.dropWhile isPySpace).reverse.dropWhile isPySpace).reverse

/-- One full pass of `re.sub(r"\n\s*\n", "\n", ·)` over a character list
(the body of `remove_empty_lines`).  `re.sub` scans for leftmost matches: a
match starts at a newline whose following whitespace run contains a further
newline; the greedy `\s*` with final backtracking makes the match end at the
last newline of that run; the whole match is replaced by a single newline and
scanning resumes after the match.  The first argument is recursion fuel: every
step consumes at least one input character, so fuel equal to the input length
(as supplied by `remove_empty_lines`) always completes the scan. -/
def reSubBlankLinesF : Nat → List Char → List Char
  | _, [] => []
  | 0, l => l
  | fuel + 1, c :: rest =>
    if c = '\n' then
      if '\n' ∈ rest.takeWhile isPySpace then
        '\n' :: reSubBlankLinesF fuel
          (((rest.takeWhile isPySpace).reverse.takeWhile (fun x => ¬ x = '\n')).reverse
            ++ rest.dropWhile isPySpace)
      else c :: reSubBlankLinesF fuel rest
    else c :: reSubBlankLinesF fuel rest

/-- `remove_empty_lines` from `processing.py`:
`re.sub(r"\n\s*\n", "\n", text_input)`. -/
def remove_empty_lines (s : String) : String := ⟨reSubBlankLinesF s.data.length s.data⟩

/-- One full pass of `re.sub(r"<[^>]+>", "", ·)` over a character list (the
body of `remove_xml_tags`).  A match is a `<`, at least one non-`>` character,
then a `>`; matches are removed, everything else is copied.  The first
argument is recursion fuel: every step consumes at least one input character,
so fuel equal to the input length always completes the scan. -/
def reSubXmlTagsF : Nat → List Char → List Char
  | _, [] => []
  | 0, l => l
  | fuel + 1, c :: rest =>
    if c = '<' then
      match rest.dropWhile (fun x => ¬ x = '>') with
      | '>' :: tail =>
        if rest.takeWhile (fun x => ¬ x = '>') = [] then c :: reSubXmlTagsF fuel rest
        else reSubXmlTagsF fuel tail
      | _ => c :: reSubXmlTagsF fuel rest
    else c :: reSubXmlTagsF fuel rest

/-- `remove_xml_tags` from `processing.py`:
`re.sub(r"<[^>]+>", "", text_input)`. -/
def remove_xml_tags (s : String) : String := ⟨reSubXmlTagsF s.data.length s.data⟩

/-- `strip_lines` from `processing.py`:
`"\n".join(line.strip() for line in text_input.splitlines())`. -/
def strip_lines (s : String) : String :=
  ⟨List.intercalate ['\n'] ((pySplitlines s.data).map pyStrip)⟩

/-- `remove_first_empty_line` from `processing.py`: drops the first line of the
text when it is blank (`lines[0].strip() == ""`), else returns the input. -/
def remove_first_empty_line (s : String) : String :=
  match pySplitlines s.data with
  | [] => s
  | l0 :: rest => if pyStrip l0 = [] then ⟨List.intercalate ['\n'] rest⟩ else s

/- ============ Transkribus client: status poll with re-login ============ -/

/-- Result of one HTTP request in the model: either a JSON body or the status
code of the `requests.HTTPError` that `raise_for_status` raises. -/
inductive HttpResult where
  | ok (body : String)
  | err (code : Nat)
deriving DecidableEq

/-- Authorisation headers, as built by `transkribus_api.py`. -/
structure Headers where
  authorization : String
  content_type : String
deriving DecidableEq

/-- The header dict
`{"Authorization": f"Bearer {token}", "Content-Type": "application/json"}`. -/
def bearer_headers (token : String) : Headers :=
  { authorization := "Bearer " ++ token, content_type := "application/json" }

/-- Decidable equality for `Except` outcomes (needed to evaluate concrete
instances of the models below). -/
instance exceptDecEq {α β : Type} [DecidableEq α] [DecidableEq β] :
    DecidableEq (Except α β) := fun x y =>
  match x, y with
  | .error a, .error b =>
    if h : a = b then isTrue (by rw [h]) else isFalse (by intro he; cases he; exact h rfl)
  | .ok a, .ok b =>
    if h : a = b then isTrue (by rw [h]) else isFalse (by intro he; cases he; exact h rfl)
  | .error a, .ok b => isFalse (by intro he; cases he)
  | .ok a, .error b => isFalse (by intro he; cases he)

/-- Observable outcome of `check_process_status_with_retry`: the returned
value or the raised status code, plus how many status GETs and how many
logins were performed. -/
structure RetryOutcome where
  result : Except Nat (String × Headers)
  status_requests : Nat
  logins : Nat
deriving DecidableEq

/-- `check_process_status_with_retry` from `transkribus_api.py`, over a model
of the network: `first_response` is the outcome of the initial status GET,
`login_result` the outcome of `transkribus_login` (a fresh token, or the
status code of the HTTP error it raises), and `retry_response` the outcome of
the second status GET, which is only ever performed after a 401.  On a
non-401 error the exception is re-raised untouched; on a 401 the client logs
in once and retries the GET exactly once with the fresh bearer token; any
failure of that retry (including another 401) propagates to the caller. -/
def check_process_status_with_retry (headers : Headers)
    (first_response : HttpResult) (login_result : Except Nat String)
    (retry_response : HttpResult) : RetryOutcome :=
  match first_response with
  | .ok body => { result := .ok (body, headers), status_requests := 1, logins := 0 }
  | .err code =>
    if code = 401 then
      match login_result with
      | .error login_code => { result := .error login_code, status_requests := 1, logins := 1 }
      | .ok new_token =>
        match retry_response with
        | .ok body =>
          { result := .ok (body, bearer_headers new_token), status_requests := 2, logins := 1 }
        | .err code2 => { result := .error code2, status_requests := 2, logins := 1 }
    else { result := .error code, status_requests := 1, logins := 0 }

/- ===================== The HTR polling loop ===================== -/

/-- Status of one Transkribus process as reported by a poll. -/
inductive TkStatus where
  | running
  | finished (text : String)
  | error
deriving DecidableEq

/-- Completion-schedule oracle: page `i` reports `FINISHED` with text
`text i` from polling round `f i` on, and `RUNNING` before (rounds count
from 1; the first poll happens in round 1, after the first sleep). -/
def schedule_oracle (f : Nat → Nat) (text : Nat → String) (round i : Nat) : TkStatus :=
  if f i ≤ round then .finished (text i) else .running

/-- The inner `for page_index, pid in enumerate(process_ids)` loop of one
polling round of `_poll_transkribus_jobs`: pages whose result is already
recorded are skipped (`continue`); a `FINISHED` page's text is recorded; an
`ERROR` page raises `RuntimeError` (modelled as `.error page_index`),
aborting the round.  `i` is the index of the first page of `res`. -/
def pollRoundAux (oracle : Nat → Nat → TkStatus) (round : Nat) :
    Nat → List (Option String) → Except Nat (List (Option String))
  | _, [] => .ok []
  | i, cur :: rest =>
    match cur with
    | some s =>
      match pollRoundAux oracle round (i + 1) rest with
      | .ok res => .ok (some s :: res)
      | .error j => .error j
    | none =>
      match oracle round i with
      | .finished t =>
        match pollRoundAux oracle round (i + 1) rest with
        | .ok res => .ok (some t :: res)
        | .error j => .error j
      | .error => .error i
      | .running =>
        match pollRoundAux oracle round (i + 1) rest with
        | .ok res => .ok (none :: res)
        | .error j => .error j

/-- The `while finished_count < total_pages` loop of
`_poll_transkribus_jobs`.  `pollLoop oracle fuel round interval slept res`
models the loop with current unknown results `res`, next round number
`round`, current back-off `interval` (time-units; exact rationals — every
value the float code computes here is exactly representable), and `slept`
the reversed list of sleeps performed so far.  Each round first sleeps, then
updates the interval, then polls every unknown page.  Returns `none` when
`fuel` rounds did not finish the job (the real loop would keep polling),
`some (.error i)` when page `i` reported `ERROR` (the `RuntimeError` raise),
and `some (.ok (results, sleeps))` on completion, with the per-page texts in
submission order and the sleep intervals in order. -/
def pollLoop (oracle : Nat → Nat → TkStatus) :
    Nat → Nat → ℚ → List ℚ → List (Option String) →
    Option (Except Nat (List String × List ℚ))
  | fuel, round, interval, slept, res =>
    if res.all Option.isSome then some (.ok (res.reduceOption, slept.reverse))
    else
      match fuel with
      | 0 => none
      | fuel + 1 =>
        match pollRoundAux oracle round 0 res with
        | .error i => some (.error i)
        | .ok res2 =>
          pollLoop oracle fuel (round + 1) (min (interval * (3 / 2)) 30) (interval :: slept) res2

/-- A full `_poll_transkribus_jobs` run for `total_pages` pages: results
start as `[None] * total_pages`, the first sleep interval is 5, rounds count
from 1. -/
def poll_transkribus_jobs (oracle : Nat → Nat → TkStatus) (fuel total_pages : Nat) :
    Option (Except Nat (List String × List ℚ)) :=
  pollLoop oracle fuel 1 5 [] (List.replicate total_pages none)

/-- The back-off sequence of `_poll_transkribus_jobs`: `poll_interval`
starts at 5 and is updated to `min(poll_interval * 1.5, 30)` after each
sleep, so the m-th sleep (counting from 0) lasts `poll_interval_seq m`. -/
def poll_interval_seq : Nat → ℚ
  | 0 => 5
  | m + 1 => min (poll_interval_seq m * (3 / 2)) 30

/-- Round in which page `i`'s result becomes known to the loop: the first
poll happens in round 1, so a page finished before the loop starts is
recorded in round 1, otherwise in round `f i`. -/
def knownRound (f : Nat → Nat) (i : Nat) : Nat := max (f i) 1

/-- Round in which the last page's result becomes known (`n ≥ 1` pages). -/
def lastRound (f : Nat → Nat) (n : Nat) : Nat :=
  ((List.range n).map (knownRound f)).foldl max 1

/-- Known-results list at the start of round `round`: pages recorded in an
earlier round carry their text.  This is the loop invariant of `pollLoop`
under the schedule oracle. -/
def pollStateAt (f : Nat → Nat) (text : Nat → String) (n round : Nat) :
    List (Option String) :=
  (List.range n).map (fun i => if knownRound f i < round then some (text i) else none)

/- ============ Job records and the state store ============ -/

/-- One per-page result entry of a RECOGNITION job (`_merge_page_results`). -/
structure PageEntry where
  page : Nat
  mllm_merged_result : String
  ocr_engine_result : String
  mllm_only_result : String
deriving DecidableEq, Inhabited

/-- A `process_status_store` entry.  The Python record is a dict whose keys
differ between job kinds and over time; optional fields model absent keys.
`created_at` is the `time.time()` stamp (exact rational model of float
time). -/
structure JobRecord where
  status : String
  transkribus_status : Option String := none
  mllm_status : Option String := none
  tei_status : Option String := none
  total_pages : Option Nat := none
  current_page : Option Nat := none
  results : Option (List PageEntry) := none
  result_tei : Option String := none
  result_text_content_only : Option String := none
  error : Option String := none
  created_at : ℚ := 0
deriving DecidableEq

/-- The `process_status_store` dict: association list keyed by process id. -/
abbrev JobStore := List (String × JobRecord)

/-- `PROCESS_ENTRY_TTL = 3600` seconds. -/
def PROCESS_ENTRY_TTL : ℚ := 3600

/-- `_cleanup_old_entries` from `views.py`, at current time `now`: deletes
every entry whose `created_at` is strictly below the cutoff
`now - PROCESS_ENTRY_TTL`. -/
def cleanup_old_entries (now : ℚ) (store : JobStore) : JobStore :=
  store.filter (fun e => !decide (e.2.created_at < now - PROCESS_ENTRY_TTL))

/-- A single field update performed on a store entry
(`process_status_store[process_id][key] = value`, or `.extend` on the
`results` list). -/
inductive Mut where
  | set_status (s : String)
  | set_transkribus_status (s : String)
  | set_mllm_status (s : String)
  | set_tei_status (s : String)
  | extend_results (es : List PageEntry)
  | set_error (e : String)
  | set_result_tei (s : String)
  | set_result_text_content_only (s : String)
deriving DecidableEq

/-- Apply one field update to a record. -/
def applyMut (r : JobRecord) : Mut → JobRecord
  | .set_status s => { r with status := s }
  | .set_transkribus_status s => { r with transkribus_status := some s }
  | .set_mllm_status s => { r with mllm_status := some s }
  | .set_tei_status s => { r with tei_status := some s }
  | .extend_results es => { r with results := some (r.results.getD [] ++ es) }
  | .set_error e => { r with error := some e }
  | .set_result_tei s => { r with result_tei := some s }
  | .set_result_text_content_only s => { r with result_text_content_only := some s }

/-- `_merge_page_results` from `views.py`.  The per-page LLM merge call
`get_merged_atr_mllm_result(model, htr, mllm, image, temperature, mode)` is
modelled by the oracle `mergeFn htr mllm image` (model name, temperature and
mode are fixed for the whole job). -/
def merge_page_results (images_base64 transkribus_results mllm_results : List String)
    (mergeFn : String → String → String → String) : List PageEntry :=
  (List.range images_base64.length).map fun page_index =>
    { page := page_index,
      mllm_merged_result := mergeFn (transkribus_results.getD page_index "")
        (mllm_results.getD page_index "") (images_base64.getD page_index ""),
      ocr_engine_result := transkribus_results.getD page_index "",
      mllm_only_result := mllm_results.getD page_index "" }

/-- Pages in the order their HTR results are recorded by the polling loop:
round by round, and within a round in page-index order. -/
def finishOrder (f : Nat → Nat) (n : Nat) : List Nat :=
  ((List.range (lastRound f n)).map (fun round =>
    (List.range n).filter (fun i => knownRound f i == round + 1))).flatten

/-- Store updates performed inside the polling loop: one progress status
message per newly recorded page (`finished_count` counts recorded pages). -/
def pollMuts (f : Nat → Nat) (n : Nat) : List Mut :=
  (List.range (finishOrder f n).length).map fun k =>
    .set_status ("Texerkennung bei " ++ toString (k + 1) ++ " von " ++ toString n
      ++ " Seite(n) abgeschlossen.")

/-- The initial RECOGNITION record inserted by `upload_image`. -/
def initial_ocr_record (total_pages : Nat) (now : ℚ) : JobRecord :=
  { status := "Texterkennung gestartet",
    transkribus_status := some "PENDING",
    mllm_status := some "PENDING",
    total_pages := some total_pages,
    current_page := some 0,
    results := some [],
    created_at := now }

/-- Store updates performed by the background worker `process_ocr` on its
success path, given the HTR texts `htrList` and the standalone MLLM texts
`mllmList` collected for the pages. -/
def process_ocr_muts (images_base64 htrList mllmList : List String)
    (mergeFn : String → String → String → String) (f : Nat → Nat) : List Mut :=
  [Mut.set_status ("Texterkennung für " ++ toString images_base64.length
      ++ " Seite(n) wird gestartet..."),
   Mut.set_status ("Texterkennung für alle " ++ toString images_base64.length
      ++ " Seite(n) läuft parallel..."),
   Mut.set_transkribus_status "RUNNING"]
  ++ pollMuts f images_base64.length
  ++ [Mut.set_status "Auf Ergebnisse des multimodalen Modells warten...",
      Mut.set_transkribus_status "FINISHED",
      Mut.set_mllm_status "FINISHED",
      Mut.set_status "Ergebnisse für alle Seiten werden zusammengeführt...",
      Mut.extend_results (merge_page_results images_base64 htrList mllmList mergeFn),
      Mut.set_status "Verarbeitung abgeschlossen",
      Mut.set_transkribus_status "FINISHED",
      Mut.set_mllm_status "FINISHED"]

/-- All store states of a successful `process_ocr` run (initial record
first), for a batch of images, an HTR completion schedule `f` with per-page
texts `htr`, the standalone-MLLM oracle `mllmFn` and the merge oracle
`mergeFn`.  The HTR texts are the polling loop's return value (run with just
enough fuel for schedule `f`); the MLLM texts are collected from the futures
list in submission order. -/
def process_ocr_states (images_base64 : List String) (f : Nat → Nat)
    (htr : Nat → String) (mllmFn : String → String)
    (mergeFn : String → String → String → String) (now : ℚ) : List JobRecord :=
  match poll_transkribus_jobs (schedule_oracle f htr)
      (lastRound f images_base64.length) images_base64.length with
  | some (Except.ok (htrList, _)) =>
    (process_ocr_muts images_base64 htrList (images_base64.map mllmFn) mergeFn f).scanl
      applyMut (initial_ocr_record images_base64.length now)
  | _ => [initial_ocr_record images_base64.length now]

/-- Final store record of a successful `process_ocr` run. -/
def process_ocr_final (images_base64 : List String) (f : Nat → Nat)
    (htr : Nat → String) (mllmFn : String → String)
    (mergeFn : String → String → String → String) (now : ℚ) : JobRecord :=
  match poll_transkribus_jobs (schedule_oracle f htr)
      (lastRound f images_base64.length) images_base64.length with
  | some (Except.ok (htrList, _)) =>
    (process_ocr_muts images_base64 htrList (images_base64.map mllmFn) mergeFn f).foldl
      applyMut (initial_ocr_record images_base64.length now)
  | _ => initial_ocr_record images_base64.length now

/-- Store updates of `process_ocr`'s `except` handler for error text `e`. -/
def process_ocr_except_muts (e : String) : List Mut :=
  [Mut.set_status ("Fehler: " ++ e), Mut.set_error e]

/-- Store updates of `process_tei`'s `except` handler for error text `e`. -/
def process_tei_except_muts (e : String) : List Mut :=
  [Mut.set_status ("Fehler: " ++ e), Mut.set_error e, Mut.set_tei_status "ERROR"]

/-- The updates a worker performs strictly after its first `error`-setting
update (the workers end right after their handler, so this is everything
that can still touch the record once `error` is set). -/
def mutsAfterError : List Mut → List Mut
  | [] => []
  | Mut.set_error _ :: rest => rest
  | _ :: rest => mutsAfterError rest

/- ===================== Entry-point validation ===================== -/

/-- JSON responses the entry points return. -/
inductive ViewResponse where
  | json_error (msg : String) (status : Nat)
  | json_process_id (pid : String)
deriving DecidableEq

/-- `VALID_MODES`. -/
def VALID_MODES : List String := ["RA", "GL"]

/-- `VALID_MODELS`. -/
def VALID_MODELS : List String :=
  ["gpt-5.2", "claude-sonnet-4-5-20250929", "gemini-2.5-pro", "gemini-3-pro-preview"]

/-- `VALID_PROMPTS`. -/
def VALID_PROMPTS : List String := ["prompt-tei-gl", "prompt-tei-ra", "prompt-tei-custom"]

/-- `MAX_PAGES`. -/
def MAX_PAGES : Nat := 10

/-- `TEMPERATURE_MIN` (exact rational model of the float bound). -/
def TEMPERATURE_MIN : ℚ := 0

/-- `TEMPERATURE_MAX`. -/
def TEMPERATURE_MAX : ℚ := 2

/-- A POST parameter destined for Python `int(...)`: either the empty string
(falsy for `if num_pages:`), a string `int` rejects with `ValueError`, or
one it parses to an integer. -/
inductive PyNum where
  | emptyStr
  | malformed
  | val (z : ℤ)
deriving DecidableEq

/-- A POST parameter destined for Python `float(...)`: either a string
`float` rejects with `ValueError`, or one it parses (exact rational model of
the float value). -/
inductive PyFloat where
  | malformed
  | val (q : ℚ)
deriving DecidableEq

/-- Python `f"...{x}..."` rendering of an `Optional[str]`: `None` prints as
`"None"`. -/
def py_str_opt : Option String → String
  | none => "None"
  | some s => s

/-- `x in SET` for an `Optional[str]` against a list of strings (`None` is
a member of no string set). -/
def opt_in_list (o : Option String) (l : List String) : Bool :=
  match o with
  | none => false
  | some s => l.contains s

/-- The POST parameters and attached files of a `create_tei` request.
String parameters are `none` when absent; numeric parameters carry their
parse outcome; `files` lists the keys of `request.FILES` and `file_content`
gives the Base64 encoding (`encode_image`) of each attached file. -/
structure TeiRequest where
  is_post : Bool
  multimodal_llm_tei : Option String
  prompt_transformation_tei : Option String
  custom_prompt_text : Option String
  temperature_tei : Option PyFloat
  merged_text : Option String
  mode : Option String
  num_pages : Option PyNum
  files : List String
  file_content : String → String

/-- `request.POST.get("mode", "RA")` in `create_tei`. -/
def tei_effective_mode (mode : Option String) : String := mode.getD "RA"

/-- The initial ANNOTATION record inserted by `create_tei`. -/
def tei_init_record (now : ℚ) : JobRecord :=
  { status := "TEI-XML-Generierung gestartet", tei_status := some "RUNNING", created_at := now }

/-- Successful tail of `create_tei`: sweep expired entries, then insert the
fresh record under the new process id and return the id. -/
def create_tei_success (store : JobStore) (now : ℚ) (new_pid : String) :
    JobStore × ViewResponse :=
  (cleanup_old_entries now store ++ [(new_pid, tei_init_record now)],
    .json_process_id new_pid)

/-- The `for i in range(num_pages)` image-collection loop of `create_tei`:
returns either the encoded images or the error message for the first missing
`image_{i}` key.  `i` is the next page index, the last argument the number
of pages still to collect. -/
def collect_images (files : List String) (content : String → String) :
    Nat → Nat → Except String (List String)
  | _, 0 => .ok []
  | i, k + 1 =>
    if ("image_" ++ toString i) ∈ files then
      match collect_images files content (i + 1) k with
      | .ok l => .ok (content ("image_" ++ toString i) :: l)
      | .error e => .error e
    else .error ("Bild " ++ toString i ++ " fehlt")

/-- Synchronous part of the `create_tei` view (validation, store sweep,
record creation); `now` is the current time and `new_pid` the UUID that
`uuid.uuid4()` yields.  The spawned background worker is modelled separately
(`process_tei_except_muts`). -/
def create_tei (store : JobStore) (now : ℚ) (new_pid : String) (req : TeiRequest) :
    JobStore × ViewResponse :=
  if req.is_post = false then (store, .json_error "POST-Anfrage erforderlich" 405)
  else if opt_in_list req.multimodal_llm_tei VALID_MODELS = false then
    (store, .json_error ("Ungültiges Modell: " ++ py_str_opt req.multimodal_llm_tei) 400)
  else if opt_in_list req.prompt_transformation_tei VALID_PROMPTS = false then
    (store, .json_error ("Ungültiger Prompt: " ++ py_str_opt req.prompt_transformation_tei) 400)
  else
    match req.temperature_tei.getD (PyFloat.val 0) with
    | .malformed => (store, .json_error "Ungültiger Temperature-Wert" 400)
    | .val temperature_tei =>
      if ¬ (TEMPERATURE_MIN ≤ temperature_tei ∧ temperature_tei ≤ TEMPERATURE_MAX) then
        (store, .json_error "Temperature muss zwischen 0.0 und 2.0 liegen" 400)
      else if req.merged_text.getD "" = "" then
        (store, .json_error "Kein Text übergeben" 400)
      else if VALID_MODES.contains (tei_effective_mode req.mode) = false then
        (store, .json_error ("Ungültiger Modus: " ++ tei_effective_mode req.mode) 400)
      else
        match req.num_pages with
        | some PyNum.malformed => (store, .json_error "Ungültige Seitenanzahl" 400)
        | some (PyNum.val num_pages) =>
          if ¬ (1 ≤ num_pages ∧ num_pages ≤ (MAX_PAGES : ℤ)) then
            (store, .json_error ("Seitenanzahl muss zwischen 1 und "
              ++ toString MAX_PAGES ++ " liegen") 400)
          else
            match collect_images req.files req.file_content 0 num_pages.toNat with
            | .error msg => (store, .json_error msg 400)
            | .ok _ => create_tei_success store now new_pid
        | none =>
          if "image" ∈ req.files then create_tei_success store now new_pid
          else (store, .json_error "Kein Bild hochgeladen" 400)
        | some PyNum.emptyStr =>
          if "image" ∈ req.files then create_tei_success store now new_pid
          else (store, .json_error "Kein Bild hochgeladen" 400)

/-- The POST parameters and uploaded files of an `upload_image` request.
`images` holds the uploads already Base64-encoded (`encode_image`);
`transkribus_model` models `int(request.POST.get("transkribus-model"))`,
where an absent parameter raises `TypeError` and an unparseable one
`ValueError`, both caught. -/
structure UploadRequest where
  is_post : Bool
  images : List String
  multimodal_llm_ocr : Option String
  transkribus_model : Option PyNum
  temperature_ocr : Option PyFloat
  mode : Option String

/-- Synchronous part of the `upload_image` view (validation, store sweep,
record creation); `now` is the current time and `new_pid` the UUID that
`uuid.uuid4()` yields.  The spawned background worker is modelled separately
(`process_ocr_states`, `process_ocr_except_muts`). -/
def upload_image (store : JobStore) (now : ℚ) (new_pid : String) (req : UploadRequest) :
    JobStore × ViewResponse :=
  if req.is_post = true ∧ req.images ≠ [] then
    if opt_in_list req.multimodal_llm_ocr VALID_MODELS = false then
      (store, .json_error ("Ungültiges Modell: " ++ py_str_opt req.multimodal_llm_ocr) 400)
    else
      match req.transkribus_model with
      | none | some PyNum.emptyStr | some PyNum.malformed =>
        (store, .json_error "Ungültiges Transkribus-Modell" 400)
      | some (PyNum.val _) =>
        match req.temperature_ocr.getD (PyFloat.val 0) with
        | .malformed => (store, .json_error "Ungültiger Temperature-Wert" 400)
        | .val temperature_ocr =>
          if ¬ (TEMPERATURE_MIN ≤ temperature_ocr ∧ temperature_ocr ≤ TEMPERATURE_MAX) then
            (store, .json_error "Temperature muss zwischen 0.0 und 2.0 liegen" 400)
          else if MAX_PAGES < req.images.length then
            (store, .json_error ("Maximal " ++ toString MAX_PAGES ++ " Seiten erlaubt") 400)
          else if opt_in_list req.mode VALID_MODES = false then
            (store, .json_error ("Ungültiger Modus: " ++ py_str_opt req.mode) 400)
          else
            (cleanup_old_entries now store
              ++ [(new_pid, initial_ocr_record req.images.length now)],
              .json_process_id new_pid)
  else (store, .json_error "POST-Anfrage mit Bildern erforderlich" 400)

/- ============ Proof-support definitions ============ -/

/-- Invariant of `reSubBlankLinesF` output: no newline is followed, within
its whitespace run, by another newline — i.e. the pattern `\n\s*\n` does not
occur. -/
def noCollapse : List Char → Prop
  | [] => True
  | c :: rest => (c = '\n' → '\n' ∉ rest.takeWhile isPySpace) ∧ noCollapse rest

/- ===================== Theorems ===================== -/

/-- `takeWhile` walks through a prefix that satisfies the predicate. -/
theorem takeWhile_append_all {p : Char → Bool} :
    ∀ (pre l : List Char), (∀ x ∈ pre, p x = true) →
      (pre ++ l).takeWhile p = pre ++ l.takeWhile p := by
  intro pre
  induction pre with
  | nil => intro l _; rfl
  | cons a t ih =>
    intro l h
    have ha : p a = true := h a (List.mem_cons_self a t)
    rw [List.cons_append, List.takeWhile_cons, ha]
    simp only [if_true]
    rw [ih l (fun x hx => h x (List.mem_cons_of_mem a hx)), List.cons_append]

/-- The head of `dropWhile p l` (when any) falsifies `p`. -/
theorem dropWhile_head_not (p : Char → Bool) :
    ∀ l : List Char, l.dropWhile p = [] ∨
      ∃ c t, l.dropWhile p = c :: t ∧ p c = false := by
  intro l
  induction l with
  | nil => left; rfl
  | cons a t ih =>
    rw [List.dropWhile_cons]
    by_cases ha : p a = true
    · simp only [ha, if_true]
      exact ih
    · right
      refine ⟨a, t, ?_, by simpa using ha⟩
      simp [ha]

/-- If `a ∈ l` falsifies `p`, `takeWhile p l` is strictly shorter than `l`. -/
theorem length_takeWhile_lt_of_mem {p : Char → Bool} {l : List Char} {a : Char}
    (ha : a ∈ l) (hpa : p a = false) : (l.takeWhile p).length < l.length := by
  induction l with
  | nil => cases ha
  | cons x xs ih =>
    rw [List.takeWhile_cons]
    by_cases hx : p x = true
    · rcases List.mem_cons.mp ha with h | h
      · rw [h] at hpa; rw [hpa] at hx; cases hx
      · have := ih h
        simp only [hx, if_true, List.length_cons]
        omega
    · simp only [Bool.not_eq_true] at hx
      simp only [hx, Bool.false_eq_true, if_false, List.length_nil, List.length_cons]
      omega

/-- A blank-line scan never creates a newline inside leading whitespace: if
the leading whitespace run of the input has no newline, neither has the
output's. -/
theorem reSubBlankLinesF_leading : ∀ (fuel : Nat) (l : List Char),
    '\n' ∉ l.takeWhile isPySpace →
    '\n' ∉ (reSubBlankLinesF fuel l).takeWhile isPySpace := by
  intro fuel
  induction fuel with
  | zero =>
    intro l h
    cases l with
    | nil => simpa [reSubBlankLinesF] using h
    | cons c rest => simpa [reSubBlankLinesF] using h
  | succ fuel ih =>
    intro l h
    cases l with
    | nil => simpa [reSubBlankLinesF] using h
    | cons c rest =>
      by_cases hc : c = '\n'
      · exfalso
        subst hc
        rw [List.takeWhile_cons] at h
        simp [isPySpace] at h
      · rw [reSubBlankLinesF]
        simp only [hc, if_false]
        by_cases hws : isPySpace c = true
        · rw [List.takeWhile_cons] at h ⊢
          simp only [hws, if_true] at h ⊢
          simp only [List.mem_cons, not_or] at h ⊢
          exact ⟨h.1, ih rest h.2⟩
        · rw [List.takeWhile_cons]
          simp only [Bool.not_eq_true] at hws
          simp [hws]

/-- The output of a sufficiently fuelled blank-line scan contains no
`\n\s*\n` pattern. -/
theorem reSubBlankLinesF_noCollapse : ∀ (fuel : Nat) (l : List Char),
    l.length ≤ fuel → noCollapse (reSubBlankLinesF fuel l) := by
  intro fuel
  induction fuel with
  | zero =>
    intro l h
    have : l = [] := by
      cases l with
      | nil => rfl
      | cons c rest => simp at h
    subst this
    simp [reSubBlankLinesF, noCollapse]
  | succ fuel ih =>
    intro l h
    cases l with
    | nil => simp [reSubBlankLinesF, noCollapse]
    | cons c rest =>
      by_cases hc : c = '\n'
      · subst hc
        by_cases hnl : '\n' ∈ rest.takeWhile isPySpace
        · rw [reSubBlankLinesF]
          simp only [if_pos rfl, hnl, if_true]
          set run := rest.takeWhile isPySpace with hrun
          set suf := (run.reverse.takeWhile (fun x => ¬ x = '\n')).reverse with hsuf
          set tail := rest.dropWhile isPySpace with htail
          have hsub : ∀ x ∈ suf, x ∈ run := by
            intro x hx
            rw [hsuf, List.mem_reverse] at hx
            have := (List.takeWhile_prefix (l := run.reverse)
              (fun x => ¬ x = '\n')).subset hx
            rwa [List.mem_reverse] at this
          have hsufws : ∀ x ∈ suf, isPySpace x = true := by
            intro x hx
            exact List.mem_takeWhile_imp (hrun ▸ hsub x hx)
          have hsufnl : '\n' ∉ suf := by
            intro hx
            rw [hsuf, List.mem_reverse] at hx
            have := List.mem_takeWhile_imp hx
            simp at this
          have hlen : suf.length < run.length := by
            have h1 : ('\n' : Char) ∈ run.reverse := by
              rw [List.mem_reverse]; exact hnl
            have := length_takeWhile_lt_of_mem (p := fun x => decide (¬ x = '\n')) h1 (by simp)
            simpa [hsuf] using this
          have hlen2 : run.length + tail.length = rest.length := by
            rw [hrun, htail]
            have h4 := congrArg List.length (List.takeWhile_append_dropWhile (p := isPySpace) (l := rest))
            simp only [List.length_append] at h4
            omega
          have hfuel : (suf ++ tail).length ≤ fuel := by
            simp only [List.length_append]
            simp only [List.length_cons] at h
            omega
          constructor
          · intro _
            apply reSubBlankLinesF_leading
            have htl : tail.takeWhile isPySpace = [] := by
              rcases dropWhile_head_not isPySpace rest with h0 | ⟨c2, t2, heq, hc2⟩
              · rw [htail, h0]; rfl
              · rw [htail, heq, List.takeWhile_cons, hc2]
                simp
            rw [takeWhile_append_all suf tail hsufws, htl]
            simpa using hsufnl
          · exact ih (suf ++ tail) hfuel
        · rw [reSubBlankLinesF]
          simp only [if_pos rfl, hnl, if_false]
          constructor
          · intro _
            exact reSubBlankLinesF_leading fuel rest hnl
          · apply ih
            simp only [List.length_cons] at h
            omega
      · rw [reSubBlankLinesF]
        simp only [hc, if_false]
        constructor
        · intro hcc; exact absurd hcc hc
        · apply ih
          simp only [List.length_cons] at h
          omega

/-- On input without the `\n\s*\n` pattern the blank-line scan is the
identity, for any fuel. -/
theorem reSubBlankLinesF_id : ∀ (fuel : Nat) (l : List Char),
    noCollapse l → reSubBlankLinesF fuel l = l := by
  intro fuel
  induction fuel with
  | zero =>
    intro l _
    cases l with
    | nil => rfl
    | cons c rest => rfl
  | succ fuel ih =>
    intro l hnc
    cases l with
    | nil => rfl
    | cons c rest =>
      rw [reSubBlankLinesF]
      rcases hnc with ⟨h1, h2⟩
      by_cases hc : c = '\n'
      · have hni : ¬ ('\n' ∈ rest.takeWhile isPySpace) := h1 hc
        simp only [hc, if_pos rfl, hni, if_false]
        rw [ih rest h2]
        simp
      · simp only [hc, if_false]
        rw [ih rest h2]

/-- C9: the blank-line-removal transform is idempotent: for every string,
applying `remove_empty_lines` twice yields the same result as applying it
once. -/
theorem c9_remove_empty_lines_idempotent (s : String) :
    remove_empty_lines (remove_empty_lines s) = remove_empty_lines s := by
  show (⟨reSubBlankLinesF (remove_empty_lines s).data.length
    (remove_empty_lines s).data⟩ : String) = remove_empty_lines s
  have hdata : (remove_empty_lines s).data = reSubBlankLinesF s.data.length s.data := rfl
  rw [hdata]
  rw [reSubBlankLinesF_id _ _ (reSubBlankLinesF_noCollapse s.data.length s.data (le_refl _))]
  rfl

/-- Witness for C9 at a concrete input. -/
theorem c9_witness :
    remove_empty_lines (remove_empty_lines "a\n \n\nb\n") = remove_empty_lines "a\n \n\nb\n" :=
  c9_remove_empty_lines_idempotent "a\n \n\nb\n"

/-- C8, counterexample: applying `remove_xml_tags`, then `remove_empty_lines`,
then `strip_lines` to `"<a>\n\nHello  \n</a>"` does not yield `"Hello"` (a
leading newline remains: the first, empty line survives all three
transforms). -/
theorem c8_counterexample :
    strip_lines (remove_empty_lines (remove_xml_tags "<a>\n\nHello  \n</a>")) ≠ "Hello" := by
  decide

/-- C8, amended: the three-transform composition on `"<a>\n\nHello  \n</a>"`
yields `"\nHello"`; the `remove_first_empty_line` step that the `process_tei`
pipeline applies afterwards then yields `"Hello"`. -/
theorem c8_amended :
    strip_lines (remove_empty_lines (remove_xml_tags "<a>\n\nHello  \n</a>")) = "\nHello" ∧
    remove_first_empty_line
      (strip_lines (remove_empty_lines (remove_xml_tags "<a>\n\nHello  \n</a>"))) = "Hello" := by
  constructor
  · decide
  · decide

/-- C3, counterexample: in the `process_tei` error handler the record is
mutated again after `error` is set (`tei_status` is set to `"ERROR"`), so the
error-setting update is not the last mutation of the record. -/
theorem c3_counterexample :
    mutsAfterError (process_tei_except_muts "boom") ≠ [] := by
  decide

/-- C3, amended: once `error` is set, `process_ocr` performs no further
update, while `process_tei` performs exactly one further update — setting
`tei_status` to `"ERROR"` — after which nothing mutates the record. -/
theorem c3_amended (e : String) :
    mutsAfterError (process_ocr_except_muts e) = [] ∧
    mutsAfterError (process_tei_except_muts e) = [Mut.set_tei_status "ERROR"] :=
  ⟨rfl, rfl⟩

/-- Witness for C3 (amended) at a concrete error text. -/
theorem c3_witness :
    mutsAfterError (process_ocr_except_muts "boom") = [] ∧
    mutsAfterError (process_tei_except_muts "boom") = [Mut.set_tei_status "ERROR"] :=
  c3_amended "boom"

/-- C4: a 401 on the status poll triggers exactly one re-login and exactly
one retry carrying the fresh bearer token; a failure of that retry (any code,
including a second 401) is raised; a successful first request performs no
login; a non-401 error is raised without any login or retry. -/
theorem c4_auth_retry (headers : Headers) (first : HttpResult)
    (login : Except Nat String) (retry : HttpResult) :
    (∀ body, first = .ok body →
      check_process_status_with_retry headers first login retry
        = ⟨.ok (body, headers), 1, 0⟩) ∧
    (∀ code, first = .err code → code ≠ 401 →
      check_process_status_with_retry headers first login retry
        = ⟨.error code, 1, 0⟩) ∧
    (∀ token, first = .err 401 → login = .ok token →
      (check_process_status_with_retry headers first login retry).logins = 1 ∧
      (check_process_status_with_retry headers first login retry).status_requests = 2 ∧
      (∀ body, retry = .ok body →
        (check_process_status_with_retry headers first login retry).result
          = .ok (body, bearer_headers token)) ∧
      (∀ code2, retry = .err code2 →
        (check_process_status_with_retry headers first login retry).result
          = .error code2)) := by
  refine ⟨?_, ?_, ?_⟩
  · intro body hb
    subst hb
    rfl
  · intro code hc hne
    subst hc
    simp [check_process_status_with_retry, hne]
  · intro token hf hl
    subst hf
    subst hl
    refine ⟨?_, ?_, ?_, ?_⟩
    · cases retry <;> rfl
    · cases retry <;> rfl
    · intro body hb
      subst hb
      rfl
    · intro code2 hc
      subst hc
      rfl

/-- Witness for C4: a second consecutive 401 after the refresh is raised,
after exactly two status requests and one login. -/
theorem c4_witness :
    check_process_status_with_retry (bearer_headers "stale") (.err 401) (.ok "fresh") (.err 401)
      = ⟨.error 401, 2, 1⟩ := by
  have h := (c4_auth_retry (bearer_headers "stale") (.err 401) (.ok "fresh") (.err 401)).2.2
    "fresh" rfl rfl
  rcases h with ⟨hlog, hreq, _, herr⟩
  have he := herr 401 rfl
  cases hout : check_process_status_with_retry (bearer_headers "stale")
      (.err 401) (.ok "fresh") (.err 401)
  rw [hout] at hlog hreq he
  simp at hlog hreq he
  simp [hlog, hreq, he]

/-- C6, counterexample: a record created at time 0 is still present after a
sweep invoked exactly at time `0 + PROCESS_ENTRY_TTL` (the sweep deletes only
entries strictly older than the cutoff), so "absent for every sweep at time
≥ creation + TTL" fails at the boundary. -/
theorem c6_counterexample :
    (0 : ℚ) + PROCESS_ENTRY_TTL ≤ 3600 ∧
    ("p1", initial_ocr_record 1 0) ∈
      cleanup_old_entries 3600 [("p1", initial_ocr_record 1 0)] := by
  constructor
  · norm_num [PROCESS_ENTRY_TTL]
  · simp [cleanup_old_entries, PROCESS_ENTRY_TTL, List.mem_filter, initial_ocr_record]

/-- C6, amended: a record created at time `T` survives a sweep invoked at
time `now` exactly when `now ≤ T + PROCESS_ENTRY_TTL`; it is absent exactly
when `now` is strictly greater than `T + PROCESS_ENTRY_TTL`. -/
theorem c6_ttl_sweep (store : JobStore) (pid : String) (rec : JobRecord) (now : ℚ)
    (hmem : (pid, rec) ∈ store) :
    (pid, rec) ∈ cleanup_old_entries now store ↔ now ≤ rec.created_at + PROCESS_ENTRY_TTL := by
  unfold cleanup_old_entries
  rw [List.mem_filter]
  constructor
  · intro h
    have := h.2
    simp only [Bool.not_eq_true', decide_eq_false_iff_not, not_lt] at this
    linarith
  · intro h
    refine ⟨hmem, ?_⟩
    simp only [Bool.not_eq_true', decide_eq_false_iff_not, not_lt]
    linarith

/-- Witness for C6 (amended): a fresh record survives an immediate sweep. -/
theorem c6_witness :
    ("p1", tei_init_record 0) ∈
      cleanup_old_entries 100 [("p1", tei_init_record 0)] ↔
    (100 : ℚ) ≤ (tei_init_record 0).created_at + PROCESS_ENTRY_TTL :=
  c6_ttl_sweep [("p1", tei_init_record 0)] "p1" (tei_init_record 0) 100 (by decide)

/-- `foldl max` dominates its initial value. -/
theorem le_foldl_max : ∀ (l : List Nat) (a : Nat), a ≤ l.foldl max a := by
  intro l
  induction l with
  | nil => intro a; exact le_refl a
  | cons x t ih =>
    intro a
    exact le_trans (le_max_left a x) (ih (max a x))

/-- `foldl max` dominates every list element. -/
theorem foldl_max_le_mem : ∀ (l : List Nat) (a x : Nat), x ∈ l → x ≤ l.foldl max a := by
  intro l
  induction l with
  | nil => intro a x hx; cases hx
  | cons y t ih =>
    intro a x hx
    rcases List.mem_cons.mp hx with h | h
    · subst h
      exact le_trans (le_max_right a x) (le_foldl_max t (max a x))
    · exact ih (max a y) x h

/-- `foldl max` is attained: it is the initial value or an element. -/
theorem foldl_max_attain : ∀ (l : List Nat) (a : Nat),
    l.foldl max a = a ∨ l.foldl max a ∈ l := by
  intro l
  induction l with
  | nil => intro a; left; rfl
  | cons y t ih =>
    intro a
    rcases ih (max a y) with h | h
    · rcases max_choice a y with hm | hm
      · left
        rw [List.foldl_cons, h, hm]
      · right
        rw [List.foldl_cons, h, hm]
        exact List.mem_cons_self y t
    · right
      exact List.mem_cons_of_mem y h

/-- Every page's known-round is at most the last round. -/
theorem knownRound_le_lastRound (f : Nat → Nat) {n i : Nat} (hi : i < n) :
    knownRound f i ≤ lastRound f n := by
  apply foldl_max_le_mem
  exact List.mem_map.mpr ⟨i, List.mem_range.mpr hi, rfl⟩

/-- Pages become known in round 1 at the earliest. -/
theorem one_le_knownRound (f : Nat → Nat) (i : Nat) : 1 ≤ knownRound f i :=
  le_max_right _ _

/-- The last round is at least 1. -/
theorem one_le_lastRound (f : Nat → Nat) (n : Nat) : 1 ≤ lastRound f n :=
  le_foldl_max _ 1

/-- For a non-empty batch some page becomes known exactly in the last round. -/
theorem lastRound_attain (f : Nat → Nat) {n : Nat} (hn : 1 ≤ n) :
    ∃ i, i < n ∧ knownRound f i = lastRound f n := by
  have hdef : lastRound f n = ((List.range n).map (knownRound f)).foldl max 1 := rfl
  rcases foldl_max_attain ((List.range n).map (knownRound f)) 1 with h | h
  · refine ⟨0, by omega, ?_⟩
    have h1 := knownRound_le_lastRound f (n := n) (i := 0) (by omega)
    have h2 := one_le_knownRound f 0
    rw [hdef] at h1 ⊢
    rw [h] at h1 ⊢
    omega
  · rcases List.mem_map.mp h with ⟨i, hi, heq⟩
    refine ⟨i, List.mem_range.mp hi, ?_⟩
    rw [hdef]
    exact heq

/-- At the start of round 1 no result is known. -/
theorem pollStateAt_one (f : Nat → Nat) (text : Nat → String) (n : Nat) :
    pollStateAt f text n 1 = List.replicate n none := by
  apply List.eq_replicate_iff.mpr
  constructor
  · simp [pollStateAt]
  · intro b hb
    rcases List.mem_map.mp hb with ⟨i, _, heq⟩
    have := one_le_knownRound f i
    rw [← heq, if_neg (by omega)]

/-- After the last round every result is known. -/
theorem pollStateAt_final (f : Nat → Nat) (text : Nat → String) (n : Nat) :
    pollStateAt f text n (lastRound f n + 1)
      = (List.range n).map (fun i => some (text i)) := by
  apply List.map_congr_left
  intro i hi
  rw [if_pos]
  have := knownRound_le_lastRound f (List.mem_range.mp hi)
  omega

/-- Dropping `some` from a list of `some`s. -/
theorem reduceOption_map_some : ∀ (l : List Nat) (g : Nat → String),
    (l.map (fun i => some (g i))).reduceOption = l.map g := by
  intro l g
  induction l with
  | nil => rfl
  | cons x t ih => simp [List.reduceOption_cons_of_some, ih]

/-- While some page is unknown, the completion check fails. -/
theorem pollStateAt_not_all (f : Nat → Nat) (text : Nat → String) {n : Nat}
    (hn : 1 ≤ n) {round : Nat} (h : round ≤ lastRound f n) :
    (pollStateAt f text n round).all Option.isSome = false := by
  rcases lastRound_attain f hn with ⟨i, hi, heq⟩
  apply List.all_eq_false.mpr
  refine ⟨if knownRound f i < round then some (text i) else none, ?_, ?_⟩
  · exact List.mem_map.mpr ⟨i, List.mem_range.mpr hi, rfl⟩
  · rw [if_neg (by omega)]
    simp

/-- When every page is known, the completion check succeeds. -/
theorem pollStateAt_all (f : Nat → Nat) (text : Nat → String) (n : Nat) :
    (pollStateAt f text n (lastRound f n + 1)).all Option.isSome = true := by
  rw [pollStateAt_final]
  apply List.all_eq_true.mpr
  intro x hx
  rcases List.mem_map.mp hx with ⟨i, _, heq⟩
  rw [← heq]
  rfl

/-- One polling round advances the known-results state by one round: already
recorded pages are skipped, pages whose job finished by this round are
recorded, the rest stay unknown (no error occurs under the schedule
oracle). -/
theorem pollRoundAux_state (f : Nat → Nat) (text : Nat → String) (round : Nat)
    (h1 : 1 ≤ round) :
    ∀ (k i0 : Nat),
      pollRoundAux (schedule_oracle f text) round i0
        ((List.range' i0 k).map
          (fun i => if knownRound f i < round then some (text i) else none))
      = Except.ok ((List.range' i0 k).map
          (fun i => if knownRound f i < round + 1 then some (text i) else none)) := by
  intro k
  induction k with
  | zero => intro i0; rfl
  | succ k ih =>
    intro i0
    rw [List.range'_succ, List.map_cons, List.map_cons]
    by_cases hk : knownRound f i0 < round
    · rw [if_pos hk, if_pos (by omega)]
      simp only [pollRoundAux]
      rw [ih (i0 + 1)]
    · rw [if_neg hk]
      by_cases hf : f i0 ≤ round
      · have hkr : knownRound f i0 < round + 1 := by
          simp only [knownRound] at hk ⊢
          omega
        rw [if_pos hkr]
        simp only [pollRoundAux, schedule_oracle]
        rw [if_pos hf]
        rw [ih (i0 + 1)]
      · have hkr : ¬ knownRound f i0 < round + 1 := by
          simp only [knownRound] at hk ⊢
          omega
        rw [if_neg hkr]
        simp only [pollRoundAux, schedule_oracle]
        rw [if_neg hf]
        rw [ih (i0 + 1)]

/-- The polling state over all pages, in `range'` form. -/
theorem pollStateAt_range' (f : Nat → Nat) (text : Nat → String) (n round : Nat) :
    pollStateAt f text n round = (List.range' 0 n).map
      (fun i => if knownRound f i < round then some (text i) else none) := by
  rw [pollStateAt, List.range_eq_range']

/-- Main loop invariant of `_poll_transkribus_jobs` under a completion
schedule: entering round `d + 1` with the round-`d + 1` state, back-off
`poll_interval_seq d` and the first `d` sleeps recorded, the loop finishes
with the page texts in submission order and one sleep per executed round,
the last of which is round `lastRound f n`. -/
theorem pollLoop_spec (f : Nat → Nat) (text : Nat → String) (n : Nat) (hn : 1 ≤ n) :
    ∀ (fuel d : Nat), d ≤ lastRound f n → lastRound f n - d ≤ fuel →
      pollLoop (schedule_oracle f text) fuel (d + 1) (poll_interval_seq d)
        (((List.range d).map poll_interval_seq).reverse) (pollStateAt f text n (d + 1))
      = some (.ok ((List.range n).map text,
          (List.range (lastRound f n)).map poll_interval_seq)) := by
  intro fuel
  induction fuel with
  | zero =>
    intro d hd hf
    have hdL : d = lastRound f n := by omega
    subst hdL
    rw [pollLoop]
    rw [if_pos (pollStateAt_all f text n)]
    rw [pollStateAt_final, reduceOption_map_some, List.reverse_reverse]
  | succ fuel ih =>
    intro d hd hf
    by_cases hdL : d = lastRound f n
    · subst hdL
      rw [pollLoop]
      rw [if_pos (pollStateAt_all f text n)]
      rw [pollStateAt_final, reduceOption_map_some, List.reverse_reverse]
    · have hdlt : d + 1 ≤ lastRound f n := by omega
      rw [pollLoop]
      rw [if_neg (by rw [pollStateAt_not_all f text hn hdlt]; simp)]
      rw [pollStateAt_range']
      rw [pollRoundAux_state f text (d + 1) (by omega) n 0]
      have hmin : min (poll_interval_seq d * (3 / 2)) 30 = poll_interval_seq (d + 1) := rfl
      have hslept : poll_interval_seq d :: ((List.range d).map poll_interval_seq).reverse
          = ((List.range (d + 1)).map poll_interval_seq).reverse := by
        rw [List.range_succ, List.map_append, List.reverse_append]
        rfl
      rw [hmin, hslept, ← pollStateAt_range']
      exact ih (d + 1) hdlt (by omega)

/-- `_poll_transkribus_jobs` under a completion schedule for `n ≥ 1` pages:
returns the page texts in submission order and performs exactly
`lastRound f n` sleeps, the m-th of back-off `poll_interval_seq m`. -/
theorem poll_transkribus_jobs_spec (f : Nat → Nat) (text : Nat → String) (n : Nat)
    (hn : 1 ≤ n) :
    poll_transkribus_jobs (schedule_oracle f text) (lastRound f n) n
      = some (.ok ((List.range n).map text,
          (List.range (lastRound f n)).map poll_interval_seq)) := by
  have h := pollLoop_spec f text n hn (lastRound f n) 0 (by omega) (by omega)
  rw [pollStateAt_one] at h
  simpa using h

/-- The back-off never exceeds the 30 time-unit cap. -/
theorem poll_interval_seq_le : ∀ m, poll_interval_seq m ≤ 30 := by
  intro m
  cases m with
  | zero => norm_num [poll_interval_seq]
  | succ m =>
    rw [poll_interval_seq]
    exact min_le_right _ _

/-- C2: the back-off sequence starts at 5, each subsequent interval is
`min(previous * 1.5, 30)` (so no interval exceeds 30), and for every
completion schedule of `n ≥ 1` pages the loop performs exactly one sleep per
round up to the round in which the last page's result becomes known
(`lastRound`), terminating in that round with all results collected. -/
theorem c2_backoff_schedule :
    poll_interval_seq 0 = 5 ∧
    (∀ m, poll_interval_seq (m + 1) = min (poll_interval_seq m * (3 / 2)) 30) ∧
    (∀ m, poll_interval_seq m ≤ 30) ∧
    (∀ (f : Nat → Nat) (text : Nat → String) (n : Nat), 1 ≤ n →
      poll_transkribus_jobs (schedule_oracle f text) (lastRound f n) n
        = some (.ok ((List.range n).map text,
            (List.range (lastRound f n)).map poll_interval_seq)) ∧
      (∀ i, i < n → knownRound f i ≤ lastRound f n) ∧
      (∃ i, i < n ∧ knownRound f i = lastRound f n)) := by
  refine ⟨rfl, fun m => rfl, poll_interval_seq_le, ?_⟩
  intro f text n hn
  exact ⟨poll_transkribus_jobs_spec f text n hn,
    fun i hi => knownRound_le_lastRound f hi,
    lastRound_attain f hn⟩

/-- Witness for C2: two pages finishing in rounds 1 and 2 yield both texts in
order after exactly two sleeps. -/
theorem c2_witness :
    poll_transkribus_jobs (schedule_oracle (fun i => i + 1) (fun i => toString i))
        (lastRound (fun i => i + 1) 2) 2
      = some (.ok (["0", "1"], [poll_interval_seq 0, poll_interval_seq 1])) := by
  have h := (c2_backoff_schedule.2.2.2 (fun i => i + 1) (fun i => toString i) 2
    (by norm_num)).1
  rw [h]
  rfl

/-- No store update changes `total_pages`. -/
theorem foldl_applyMut_total_pages : ∀ (muts : List Mut) (r : JobRecord),
    (muts.foldl applyMut r).total_pages = r.total_pages := by
  intro muts
  induction muts with
  | nil => intro r; rfl
  | cons m t ih =>
    intro r
    rw [List.foldl_cons, ih]
    cases m <;> rfl

/-- A fold over updates none of which sets `error` leaves `error` unchanged. -/
theorem foldl_applyMut_error : ∀ (muts : List Mut),
    (∀ m ∈ muts, ∀ e, m ≠ Mut.set_error e) →
    ∀ r : JobRecord, (muts.foldl applyMut r).error = r.error := by
  intro muts
  induction muts with
  | nil => intro _ r; rfl
  | cons m t ih =>
    intro h r
    rw [List.foldl_cons, ih (fun m hm => h m (List.mem_cons_of_mem _ hm))]
    cases m with
    | set_error e => exact absurd rfl (h _ (List.mem_cons_self _ _) e)
    | set_status s => rfl
    | set_transkribus_status s => rfl
    | set_mllm_status s => rfl
    | set_tei_status s => rfl
    | extend_results es => rfl
    | set_result_tei s => rfl
    | set_result_text_content_only s => rfl

/-- A fold over updates none of which extends `results` leaves `results`
unchanged. -/
theorem foldl_applyMut_results : ∀ (muts : List Mut),
    (∀ m ∈ muts, ∀ es, m ≠ Mut.extend_results es) →
    ∀ r : JobRecord, (muts.foldl applyMut r).results = r.results := by
  intro muts
  induction muts with
  | nil => intro _ r; rfl
  | cons m t ih =>
    intro h r
    rw [List.foldl_cons, ih (fun m hm => h m (List.mem_cons_of_mem _ hm))]
    cases m with
    | extend_results es => exact absurd rfl (h _ (List.mem_cons_self _ _) es)
    | set_status s => rfl
    | set_transkribus_status s => rfl
    | set_mllm_status s => rfl
    | set_tei_status s => rfl
    | set_error e => rfl
    | set_result_tei s => rfl
    | set_result_text_content_only s => rfl

/-- The polling loop's store updates are all progress-status messages. -/
theorem pollMuts_all_status (f : Nat → Nat) (n : Nat) :
    ∀ m ∈ pollMuts f n, ∃ s, m = Mut.set_status s := by
  intro m hm
  rcases List.mem_map.mp hm with ⟨k, _, heq⟩
  exact ⟨_, heq.symm⟩

/-- `getD` over a map of `range`. -/
theorem getD_map_range {α : Type} (g : Nat → α) {n i : Nat} (hi : i < n) (d : α) :
    ((List.range n).map g).getD i d = g i := by
  rw [List.getD_eq_getElem?_getD, List.getElem?_map, List.getElem?_range hi]
  rfl

/-- `getD` through a `map`, for in-range indices. -/
theorem getD_map_of_lt {α β : Type} (l : List α) (g : α → β) {i : Nat}
    (hi : i < l.length) (d : β) (d2 : α) :
    (l.map g).getD i d = g (l.getD i d2) := by
  rw [List.getD_eq_getElem?_getD, List.getElem?_map, List.getElem?_eq_getElem hi,
    List.getD_eq_getElem?_getD, List.getElem?_eq_getElem hi]
  rfl

/-- C1: for every batch of 1..`MAX_PAGES` pages and every HTR completion
schedule, a successfully finishing recognition job ends with `results` of
length exactly `total_pages`, and the entry at index `i` carries the HTR
text, the MLLM-only text and the merged text of the image submitted at
position `i` — alignment is by page index, never by completion order. -/
theorem c1_recognition_alignment (images : List String) (f : Nat → Nat)
    (htr : Nat → String) (mllmFn : String → String)
    (mergeFn : String → String → String → String) (now : ℚ)
    (h1 : 1 ≤ images.length) (h2 : images.length ≤ MAX_PAGES) :
    (process_ocr_final images f htr mllmFn mergeFn now).total_pages = some images.length ∧
    (process_ocr_final images f htr mllmFn mergeFn now).error = none ∧
    ∃ entries, (process_ocr_final images f htr mllmFn mergeFn now).results = some entries ∧
      entries.length = images.length ∧
      ∀ i, i < images.length →
        entries.getD i default =
          { page := i,
            mllm_merged_result := mergeFn (htr i) (mllmFn (images.getD i ""))
              (images.getD i ""),
            ocr_engine_result := htr i,
            mllm_only_result := mllmFn (images.getD i "") } := by
  have hpoll := poll_transkribus_jobs_spec f htr images.length h1
  have hfinal : process_ocr_final images f htr mllmFn mergeFn now
      = (process_ocr_muts images ((List.range images.length).map htr)
          (images.map mllmFn) mergeFn f).foldl applyMut
          (initial_ocr_record images.length now) := by
    unfold process_ocr_final
    rw [hpoll]
  rw [hfinal]
  rw [process_ocr_muts, List.foldl_append, List.foldl_append]
  set r1 := ([Mut.set_status ("Texterkennung für " ++ toString images.length
      ++ " Seite(n) wird gestartet..."),
    Mut.set_status ("Texterkennung für alle " ++ toString images.length
      ++ " Seite(n) läuft parallel..."),
    Mut.set_transkribus_status "RUNNING"]).foldl applyMut
    (initial_ocr_record images.length now) with hr1
  set r2 := (pollMuts f images.length).foldl applyMut r1 with hr2
  have hr2results : r2.results = some [] := by
    rw [hr2]
    rw [foldl_applyMut_results _ (fun m hm es => by
      rcases pollMuts_all_status f images.length m hm with ⟨s, hs⟩
      subst hs
      simp)]
    rw [hr1]
    rfl
  have hr2error : r2.error = none := by
    rw [hr2]
    rw [foldl_applyMut_error _ (fun m hm e => by
      rcases pollMuts_all_status f images.length m hm with ⟨s, hs⟩
      subst hs
      simp)]
    rw [hr1]
    rfl
  have hr2pages : r2.total_pages = some images.length := by
    rw [hr2, foldl_applyMut_total_pages, hr1, foldl_applyMut_total_pages]
    rfl
  refine ⟨?_, ?_, ?_⟩
  · simp only [List.foldl_cons, List.foldl_nil]
    simp only [applyMut]
    simpa using hr2pages
  · simp only [List.foldl_cons, List.foldl_nil]
    simp only [applyMut]
    simpa using hr2error
  · refine ⟨merge_page_results images ((List.range images.length).map htr)
      (images.map mllmFn) mergeFn, ?_, ?_, ?_⟩
    · simp only [List.foldl_cons, List.foldl_nil]
      simp only [applyMut]
      simp [hr2results]
    · simp [merge_page_results]
    · intro i hi
      rw [merge_page_results]
      have hlen : i < ((List.range images.length).map
          (fun page_index => (⟨page_index,
            mergeFn (((List.range images.length).map htr).getD page_index "")
              ((images.map mllmFn).getD page_index "") (images.getD page_index ""),
            ((List.range images.length).map htr).getD page_index "",
            (images.map mllmFn).getD page_index ""⟩ : PageEntry))).length := by
        simpa using hi
      rw [getD_map_range _ hi]
      rw [getD_map_range htr hi, getD_map_of_lt images mllmFn hi "" ""]

/-- Witness for C1: two pages whose HTR jobs finish in reverse order (page 1
in round 1, page 0 in round 2) still produce index-aligned results. -/
theorem c1_witness :
    (process_ocr_final ["a", "b"] (fun i => 2 - i) (fun i => "h" ++ toString i)
        (fun s => "m" ++ s) (fun x y z => x ++ y ++ z) 0).total_pages = some 2 ∧
    (process_ocr_final ["a", "b"] (fun i => 2 - i) (fun i => "h" ++ toString i)
        (fun s => "m" ++ s) (fun x y z => x ++ y ++ z) 0).error = none ∧
    ∃ entries, (process_ocr_final ["a", "b"] (fun i => 2 - i) (fun i => "h" ++ toString i)
        (fun s => "m" ++ s) (fun x y z => x ++ y ++ z) 0).results = some entries ∧
      entries.length = 2 ∧
      ∀ i, i < 2 →
        entries.getD i default =
          { page := i,
            mllm_merged_result := ("h" ++ toString i) ++ ("m" ++ (["a", "b"].getD i ""))
              ++ (["a", "b"].getD i ""),
            ocr_engine_result := "h" ++ toString i,
            mllm_only_result := "m" ++ (["a", "b"].getD i "") } :=
  c1_recognition_alignment ["a", "b"] (fun i => 2 - i) (fun i => "h" ++ toString i)
    (fun s => "m" ++ s) (fun x y z => x ++ y ++ z) 0 (by decide) (by decide)

/-- Every intermediate state of a `scanl` is the fold of a prefix. -/
theorem scanl_mem_split {st : JobRecord} : ∀ (l : List Mut) (b : JobRecord),
    st ∈ l.scanl applyMut b → ∃ p s, l = p ++ s ∧ st = p.foldl applyMut b := by
  intro l
  induction l with
  | nil =>
    intro b hst
    rw [List.scanl_nil] at hst
    rcases List.mem_cons.mp hst with h | h
    · exact ⟨[], [], rfl, h⟩
    · cases h
  | cons m t ih =>
    intro b hst
    rw [List.scanl_cons] at hst
    rcases List.mem_append.mp hst with h | h
    · rcases List.mem_cons.mp h with h1 | h1
      · exact ⟨[], m :: t, rfl, h1⟩
      · cases h1
    · rcases ih (applyMut b m) h with ⟨p, s, hps, hfold⟩
      exact ⟨m :: p, s, by rw [List.cons_append, hps], by rw [List.foldl_cons]; exact hfold⟩

/-- C5, counterexample: with two pages finishing in different rounds, the
trace of a recognition job contains a state in which one page has completed
(the status message says so) while `results` is still empty, and no state at
all has `results` of length 1 — per-page entries are not appended as pages
complete. -/
theorem c5_counterexample :
    (∃ st ∈ process_ocr_states ["i0", "i1"] (fun i => i + 1)
        (fun i => "h" ++ toString i) (fun s => "m" ++ s) (fun x y z => x ++ y ++ z) 0,
      st.status = "Texerkennung bei 1 von 2 Seite(n) abgeschlossen." ∧
      st.results = some []) ∧
    ∀ st ∈ process_ocr_states ["i0", "i1"] (fun i => i + 1)
        (fun i => "h" ++ toString i) (fun s => "m" ++ s) (fun x y z => x ++ y ++ z) 0,
      (st.results.getD []).length ≠ 1 := by
  decide

/-- C5, amended: per-page result entries are not appended one by one; in
every reachable store state of a recognition job the `results` sequence is
either still empty (the whole time the job is running, with progress exposed
only through the status message) or complete, set in one batch of
`total_pages` entries after all pages are merged. -/
theorem c5_batch_results (images : List String) (f : Nat → Nat)
    (htr : Nat → String) (mllmFn : String → String)
    (mergeFn : String → String → String → String) (now : ℚ) :
    ∀ st ∈ process_ocr_states images f htr mllmFn mergeFn now,
      st.results = some [] ∨
      ∃ es, st.results = some es ∧ es.length = images.length := by
  intro st hst
  unfold process_ocr_states at hst
  split at hst
  case h_2 =>
    left
    rcases List.mem_cons.mp hst with h | h
    · rw [h]; rfl
    · cases h
  case h_1 htrList slept heq =>
    rcases scanl_mem_split _ _ hst with ⟨p, s, hps, hfold⟩
    rw [process_ocr_muts] at hps
    set L1P := ([Mut.set_status ("Texterkennung für " ++ toString images.length
        ++ " Seite(n) wird gestartet..."),
      Mut.set_status ("Texterkennung für alle " ++ toString images.length
        ++ " Seite(n) läuft parallel..."),
      Mut.set_transkribus_status "RUNNING"] ++ pollMuts f images.length) with hL1P
    set es := merge_page_results images htrList (images.map mllmFn) mergeFn with hes
    set l2a := [Mut.set_status "Auf Ergebnisse des multimodalen Modells warten...",
      Mut.set_transkribus_status "FINISHED",
      Mut.set_mllm_status "FINISHED",
      Mut.set_status "Ergebnisse für alle Seiten werden zusammengeführt..."] with hl2a
    set B := [Mut.set_status "Verarbeitung abgeschlossen",
      Mut.set_transkribus_status "FINISHED",
      Mut.set_mllm_status "FINISHED"] with hB
    have hshape : p ++ s = (L1P ++ l2a) ++ (Mut.extend_results es :: B) := by
      rw [← hps]
      simp [hL1P, hl2a, hB, hes, List.append_assoc]
    have hAnoext : ∀ m ∈ L1P ++ l2a, ∀ es2, m ≠ Mut.extend_results es2 := by
      intro m hm es2
      rcases List.mem_append.mp hm with hm1 | hm2
      · rcases List.mem_append.mp hm1 with hm3 | hm4
        · simp only [List.mem_cons, List.not_mem_nil, or_false] at hm3
          rcases hm3 with h | h | h <;> (subst h; simp)
        · rcases pollMuts_all_status f _ m hm4 with ⟨s2, hs2⟩
          subst hs2
          simp
      · simp only [hl2a, List.mem_cons, List.not_mem_nil, or_false] at hm2
        rcases hm2 with h | h | h | h <;> (subst h; simp)
    have hBnoext : ∀ m ∈ B, ∀ es2, m ≠ Mut.extend_results es2 := by
      intro m hm es2
      simp only [hB, List.mem_cons, List.not_mem_nil, or_false] at hm
      rcases hm with h | h | h <;> (subst h; simp)
    rcases List.append_eq_append_iff.mp hshape with ⟨a2, ha2, _⟩ | ⟨c2, hc2, hd2⟩
    · left
      rw [hfold]
      rw [foldl_applyMut_results p (fun m hm es2 => hAnoext m (by rw [ha2]; exact List.mem_append_left _ hm) es2)]
      rfl
    · cases c2 with
      | nil =>
        left
        rw [List.append_nil] at hc2
        rw [hfold, hc2]
        rw [foldl_applyMut_results _ hAnoext]
        rfl
      | cons m0 c3 =>
        rw [List.cons_append] at hd2
        have hm0 : m0 = Mut.extend_results es := (List.cons_eq_cons.mp hd2).1.symm
        have hBc3 : B = c3 ++ s := (List.cons_eq_cons.mp hd2).2
        right
        refine ⟨es, ?_, ?_⟩
        · rw [hfold, hc2, hm0]
          rw [List.foldl_append, List.foldl_cons]
          rw [foldl_applyMut_results c3 (fun m hm es2 =>
            hBnoext m (by rw [hBc3]; exact List.mem_append_left _ hm) es2)]
          have hA : ((L1P ++ l2a).foldl applyMut
              (initial_ocr_record images.length now)).results = some [] := by
            rw [foldl_applyMut_results _ hAnoext]
            rfl
          simp only [applyMut, hA]
          rfl
        · rw [hes]
          simp [merge_page_results]

/-- Witness for C5 (amended): the initial record of a one-page job. -/
theorem c5_witness :
    (initial_ocr_record 1 0).results = some [] ∨
    ∃ es, (initial_ocr_record 1 0).results = some es ∧
      es.length = (["a"] : List String).length :=
  c5_batch_results ["a"] (fun _ => 1) (fun _ => "h") (fun _ => "m") (fun _ _ _ => "g") 0
    (initial_ocr_record 1 0) (by decide)

/-- The image-collection loop of `create_tei` stops at the first missing
image key and reports exactly its index. -/
theorem collect_images_first_missing (files : List String) (content : String → String) :
    ∀ (k i : Nat), (∃ j, i ≤ j ∧ j < i + k ∧ ("image_" ++ toString j) ∉ files) →
    ∃ j, i ≤ j ∧ j < i + k ∧ ("image_" ++ toString j) ∉ files ∧
      (∀ m, i ≤ m → m < j → ("image_" ++ toString m) ∈ files) ∧
      collect_images files content i k = .error ("Bild " ++ toString j ++ " fehlt") := by
  intro k
  induction k with
  | zero =>
    intro i h
    rcases h with ⟨j, hj1, hj2, _⟩
    omega
  | succ k ih =>
    intro i h
    rcases h with ⟨j, hj1, hj2, hjm⟩
    by_cases hi : ("image_" ++ toString i) ∈ files
    · have hne : i ≠ j := by
        intro hij
        rw [hij] at hi
        exact hjm hi
      rcases ih (i + 1) ⟨j, by omega, by omega, hjm⟩ with ⟨j2, h1, h2, h3, h4, h5⟩
      refine ⟨j2, by omega, by omega, h3, ?_, ?_⟩
      · intro m hm1 hm2
        by_cases hmi : m = i
        · rw [hmi]; exact hi
        · exact h4 m (by omega) hm2
      · rw [collect_images, if_pos hi, h5]
    · exact ⟨i, le_refl i, by omega, hi, fun m hm1 hm2 => by omega,
        by rw [collect_images, if_neg hi]⟩

/-- C7: an annotation submission declaring `N` pages with the image for some
index below `N` missing is rejected synchronously with a validation error
naming the first missing index; the store is left untouched and no process
id is issued. -/
theorem c7_missing_image (store : JobStore) (now : ℚ) (new_pid : String)
    (req : TeiRequest)
    (hpost : req.is_post = true)
    (hmodel : opt_in_list req.multimodal_llm_tei VALID_MODELS = true)
    (hprompt : opt_in_list req.prompt_transformation_tei VALID_PROMPTS = true)
    (htemp : ∃ q, req.temperature_tei.getD (PyFloat.val 0) = PyFloat.val q ∧
      TEMPERATURE_MIN ≤ q ∧ q ≤ TEMPERATURE_MAX)
    (hmt : ¬ req.merged_text.getD "" = "")
    (hmode : VALID_MODES.contains (tei_effective_mode req.mode) = true)
    (N : ℤ) (hnp : req.num_pages = some (PyNum.val N)) (hN1 : 1 ≤ N) (hN2 : N ≤ 10)
    (hmiss : ∃ j, j < N.toNat ∧ ("image_" ++ toString j) ∉ req.files) :
    ∃ j, j < N.toNat ∧ ("image_" ++ toString j) ∉ req.files ∧
      (∀ m, m < j → ("image_" ++ toString m) ∈ req.files) ∧
      create_tei store now new_pid req
        = (store, .json_error ("Bild " ++ toString j ++ " fehlt") 400) := by
  obtain ⟨q, hq, hq1, hq2⟩ := htemp
  rcases collect_images_first_missing req.files req.file_content N.toNat 0
    (by rcases hmiss with ⟨j, h1, h2⟩; exact ⟨j, by omega, by omega, h2⟩)
    with ⟨j, hj0, hjlt, hjmiss, hjall, hjerr⟩
  refine ⟨j, by omega, hjmiss, fun m hm => hjall m (by omega) hm, ?_⟩
  unfold create_tei
  rw [hpost, hmodel, hprompt, hq, hmode, hnp]
  rw [if_neg (by simp)]
  rw [if_neg (by simp)]
  rw [if_neg (by simp)]
  simp only []
  rw [if_neg (by push_neg; exact ⟨hq1, hq2⟩)]
  rw [if_neg hmt]
  rw [if_neg (by simp)]
  rw [if_neg (by simp [MAX_PAGES]; omega)]
  rw [hjerr]

/-- Witness for C7: three declared pages, images attached only for indices 0
and 1 — the request is rejected naming index 2 and the store stays empty. -/
theorem c7_witness :
    ∃ j, j < (3 : ℤ).toNat ∧
      ("image_" ++ toString j) ∉ (["image_0", "image_1"] : List String) ∧
      (∀ m, m < j → ("image_" ++ toString m) ∈ (["image_0", "image_1"] : List String)) ∧
      create_tei [] 0 "pid-1"
          { is_post := true, multimodal_llm_tei := some "gpt-5.2",
            prompt_transformation_tei := some "prompt-tei-gl",
            custom_prompt_text := none, temperature_tei := none,
            merged_text := some "Text", mode := some "RA",
            num_pages := some (PyNum.val 3),
            files := ["image_0", "image_1"], file_content := fun _ => "" }
        = ([], .json_error ("Bild " ++ toString j ++ " fehlt") 400) :=
  c7_missing_image [] 0 "pid-1"
    { is_post := true, multimodal_llm_tei := some "gpt-5.2",
      prompt_transformation_tei := some "prompt-tei-gl",
      custom_prompt_text := none, temperature_tei := none,
      merged_text := some "Text", mode := some "RA",
      num_pages := some (PyNum.val 3),
      files := ["image_0", "image_1"], file_content := fun _ => "" }
    rfl (by decide) (by decide)
    ⟨0, rfl, by norm_num [TEMPERATURE_MIN], by norm_num [TEMPERATURE_MAX]⟩
    (by decide) (by decide) 3 rfl (by decide) (by decide) ⟨2, by decide, by decide⟩

/-- C10: the two entry points validate the account mode asymmetrically — an
annotation submission without a mode parameter defaults to `"RA"` and is
accepted (only an explicitly supplied mode outside `VALID_MODES` is
rejected), whereas a recognition submission without a mode parameter is
rejected with a validation error. -/
theorem c10_mode_validation_asymmetry :
    tei_effective_mode none = "RA" ∧
    (∀ (store : JobStore) (now : ℚ) (new_pid : String) (req : TeiRequest),
      req.is_post = true →
      opt_in_list req.multimodal_llm_tei VALID_MODELS = true →
      opt_in_list req.prompt_transformation_tei VALID_PROMPTS = true →
      (∃ q, req.temperature_tei.getD (PyFloat.val 0) = PyFloat.val q ∧
        TEMPERATURE_MIN ≤ q ∧ q ≤ TEMPERATURE_MAX) →
      ¬ req.merged_text.getD "" = "" →
      req.mode = none →
      req.num_pages = none →
      "image" ∈ req.files →
      create_tei store now new_pid req = create_tei_success store now new_pid) ∧
    (∀ (store : JobStore) (now : ℚ) (new_pid : String) (req : UploadRequest),
      req.is_post = true →
      req.images ≠ [] →
      opt_in_list req.multimodal_llm_ocr VALID_MODELS = true →
      (∃ z, req.transkribus_model = some (PyNum.val z)) →
      (∃ q, req.temperature_ocr.getD (PyFloat.val 0) = PyFloat.val q ∧
        TEMPERATURE_MIN ≤ q ∧ q ≤ TEMPERATURE_MAX) →
      req.images.length ≤ MAX_PAGES →
      req.mode = none →
      upload_image store now new_pid req
        = (store, ViewResponse.json_error "Ungültiger Modus: None" 400)) ∧
    (∀ (m : String), VALID_MODES.contains m = false →
      ∀ (store : JobStore) (now : ℚ) (new_pid : String) (req : TeiRequest),
        req.is_post = true →
        opt_in_list req.multimodal_llm_tei VALID_MODELS = true →
        opt_in_list req.prompt_transformation_tei VALID_PROMPTS = true →
        (∃ q, req.temperature_tei.getD (PyFloat.val 0) = PyFloat.val q ∧
          TEMPERATURE_MIN ≤ q ∧ q ≤ TEMPERATURE_MAX) →
        ¬ req.merged_text.getD "" = "" →
        req.mode = some m →
        create_tei store now new_pid req
          = (store, ViewResponse.json_error ("Ungültiger Modus: " ++ m) 400)) := by
  refine ⟨rfl, ?_, ?_, ?_⟩
  · intro store now new_pid req hpost hmodel hprompt htemp hmt hmode hnp himg
    obtain ⟨q, hq, hq1, hq2⟩ := htemp
    unfold create_tei
    rw [hpost, hmodel, hprompt, hq, hmode, hnp]
    rw [if_neg (by simp)]
    rw [if_neg (by simp)]
    rw [if_neg (by simp)]
    simp only []
    rw [if_neg (by push_neg; exact ⟨hq1, hq2⟩)]
    rw [if_neg hmt]
    rw [if_neg (by simp [tei_effective_mode, VALID_MODES])]
    try simp only []
    rw [if_pos himg]
  · intro store now new_pid req hpost himages hmodel htk htemp hcount hmode
    obtain ⟨z, hz⟩ := htk
    obtain ⟨q, hq, hq1, hq2⟩ := htemp
    unfold upload_image
    rw [if_pos ⟨hpost, himages⟩]
    rw [hmodel, hz, hq, hmode]
    rw [if_neg (by simp)]
    simp only []
    rw [if_neg (by push_neg; exact ⟨hq1, hq2⟩)]
    rw [if_neg (by simp [MAX_PAGES] at hcount ⊢; omega)]
    rw [if_pos (by simp [opt_in_list])]
    rfl
  · intro m hm store now new_pid req hpost hmodel hprompt htemp hmt hmode
    obtain ⟨q, hq, hq1, hq2⟩ := htemp
    unfold create_tei
    rw [hpost, hmodel, hprompt, hq, hmode]
    rw [if_neg (by simp)]
    rw [if_neg (by simp)]
    rw [if_neg (by simp)]
    simp only []
    rw [if_neg (by push_neg; exact ⟨hq1, hq2⟩)]
    rw [if_neg hmt]
    rw [if_pos (by simp only [tei_effective_mode, Option.getD_some]; exact hm)]
    rfl

/-- Witness for C10: a concrete annotation request without a mode parameter
is accepted, a concrete recognition request without one is rejected. -/
theorem c10_witness :
    create_tei [] 0 "pid-2"
        { is_post := true, multimodal_llm_tei := some "gpt-5.2",
          prompt_transformation_tei := some "prompt-tei-gl",
          custom_prompt_text := none, temperature_tei := none,
          merged_text := some "Text", mode := none, num_pages := none,
          files := ["image"], file_content := fun _ => "" }
      = create_tei_success [] 0 "pid-2" ∧
    upload_image [] 0 "pid-3"
        { is_post := true, images := ["img"],
          multimodal_llm_ocr := some "gpt-5.2",
          transkribus_model := some (PyNum.val 12345),
          temperature_ocr := none, mode := none }
      = ([], ViewResponse.json_error "Ungültiger Modus: None" 400) :=
  ⟨c10_mode_validation_asymmetry.2.1 [] 0 "pid-2" _ rfl (by decide) (by decide)
      ⟨0, rfl, by norm_num [TEMPERATURE_MIN], by norm_num [TEMPERATURE_MAX]⟩
      (by decide) rfl rfl (by decide),
    c10_mode_validation_asymmetry.2.2.1 [] 0 "pid-3" _ rfl (by decide) (by decide)
      ⟨12345, rfl⟩
      ⟨0, rfl, by norm_num [TEMPERATURE_MIN], by norm_num [TEMPERATURE_MAX]⟩
      (by decide) rfl⟩
